import Mathlib

/-!
Shallow embedding of `src/db.js` (class `SimpleRDBMS`), an in-memory SQL
engine.  JavaScript objects are modelled as insertion-ordered association
lists, JS numbers as rationals (`Rat`; the decimal literals handled by the
engine are exact in `Rat`, NaN is represented by `Option.none` at coercion
sites), and the possible `undefined` of a property read as `Option Value`.
Each definition mirrors one function of the source; the regular expressions
of the source are executed by a small backtracking matcher implementing the
standard greedy leftmost-match semantics of JS regexes for the exact pattern
shapes appearing in the source.
-/

namespace SimpleRDBMS

/-- A JS value that can be stored in a row: null, boolean, number or string.
Numbers are modelled as rationals; the engine only ever constructs numbers
from decimal literals, which are exact in `Rat`. -/
inductive Value where
  | vNull
  | vBool (b : Bool)
  | vNum (n : Rat)
  | vStr (s : String)
deriving DecidableEq

/-- A property read from a JS object: `none` models `undefined`. -/
abbrev JSVal := Option Value

/-- A row object: insertion-ordered mapping from column name to value. -/
abbrev Row := List (String × Value)

/-- The `constraints` object of a table.  The source stores the primary key
under the fixed key `primaryKey` and a `{unique: true}` marker under each
unique column's name; the two kinds of entries are modelled as separate
fields. -/
structure Constraints where
  primaryKey : Option String
  uniqueCols : List String
deriving DecidableEq

/-- A table: ordered column-name/type-tag mapping, constraints and rows.
The source's `indexes` object is always empty and never read, so it is
omitted. -/
structure Table where
  columns : List (String × String)
  constraints : Constraints
  rows : List Row
deriving DecidableEq

/-- Model of `this.tables`: insertion-ordered mapping from table name to table. -/
abbrev Tables := List (String × Table)

/-- The engine state: `this.tables` and `this.history`. -/
structure DB where
  tables : Tables
  history : List String
deriving DecidableEq

/-- The discriminated Result returned by `execute`: a success message, a
`{data, count}` payload (with the resolved column list when SELECT produced
it), or an error message. -/
inductive Result where
  | message (m : String)
  | dataset (data : List Row) (count : Nat) (columns : Option (List String))
  | error (e : String)
deriving DecidableEq

/-- True exactly on error Results. -/
def Result.isError : Result → Bool
  | .error _ => true
  | _ => false

/-! ### JS object primitives over association lists -/

/-- Property read `m[k]`: first entry with the key, `none` = `undefined`. -/
def jsGet {α : Type} (m : List (String × α)) (k : String) : Option α :=
  (m.find? (fun p => p.1 == k)).map (fun p => p.2)

/-- Property write `m[k] = v`: overwrite in place if the key exists,
otherwise append (JS objects preserve insertion order). -/
def jsSet {α : Type} (m : List (String × α)) (k : String) (v : α) : List (String × α) :=
  if (m.find? (fun p => p.1 == k)).isSome then
    m.map (fun p => if p.1 == k then (k, v) else p)
  else
    m ++ [(k, v)]

/-- JS `delete m[k]`. -/
def jsDelete {α : Type} (m : List (String × α)) (k : String) : List (String × α) :=
  m.filter (fun p => p.1 != k)

/-- JS `Object.assign(target, source)`: write each source entry into the
target, in source order. -/
def jsAssign (target source : Row) : Row :=
  source.foldl (fun r p => jsSet r p.1 p.2) target

/-! ### String primitives mirroring the JS ones used by the source -/

/-- JS `String.prototype.toUpperCase` (ASCII; the engine only compares ASCII
keywords). -/
def jsToUpper (s : String) : String := String.mk (s.data.map Char.toUpper)

/-- JS `String.prototype.toLowerCase` (ASCII). -/
def jsToLower (s : String) : String := String.mk (s.data.map Char.toLower)

/-- JS whitespace: the WhiteSpace and LineTerminator productions — the set
stripped by `trim`, matched by `\s`, and skipped by `Number()`.  Beyond the
ASCII ones these are VT, FF, NBSP, the Ogham space mark, the U+2000–U+200A
spaces, the line and paragraph separators, the narrow no-break space, the
medium mathematical space, the ideographic space and ZWNBSP. -/
def isJsWhitespace (c : Char) : Bool :=
  c == ' ' || c == '\t' || c == '\n' || c == '\r' ||
    c.toNat == 0xb || c.toNat == 0xc || c.toNat == 0xa0 || c.toNat == 0x1680 ||
    (0x2000 ≤ c.toNat && c.toNat ≤ 0x200a) ||
    c.toNat == 0x2028 || c.toNat == 0x2029 || c.toNat == 0x202f || c.toNat == 0x205f ||
    c.toNat == 0x3000 || c.toNat == 0xfeff

/-- Whitespace trim on a character list (both ends). -/
def trimL (cs : List Char) : List Char :=
  ((cs.dropWhile isJsWhitespace).reverse.dropWhile isJsWhitespace).reverse

/-- JS `String.prototype.trim`. -/
def jsTrimStr (s : String) : String := String.mk (trimL s.data)

/-- JS `String.prototype.startsWith`. -/
def startsWithStr (s pre : String) : Bool := pre.data.isPrefixOf s.data

/-- JS `String.prototype.endsWith`. -/
def endsWithStr (s suf : String) : Bool := suf.data.isSuffixOf s.data

/-- JS `str.slice(1)`. -/
def dropFirstChar (s : String) : String := String.mk (s.data.drop 1)

/-- JS `str.slice(0, -1)`. -/
def dropLastChar (s : String) : String := String.mk s.data.dropLast

/-- JS `str.slice(1, -1)`. -/
def dropFirstLastChar (s : String) : String := String.mk (s.data.drop 1).dropLast

/-- Index of the first occurrence of `sep` in `cs`, if any. -/
def findSubIdx (sep cs : List Char) : Option Nat :=
  (List.range (cs.length + 1)).find? (fun i => sep.isPrefixOf (cs.drop i))

/-- JS `String.prototype.split` with a nonempty string separator, on character
lists; the fuel argument (the list length) only serves structural
termination. -/
def splitOnFuel (sep : List Char) : Nat → List Char → List (List Char)
  | 0, cs => [cs]
  | fuel + 1, cs =>
      match findSubIdx sep cs with
      | none => [cs]
      | some i => cs.take i :: splitOnFuel sep fuel (cs.drop (i + sep.length))

/-- JS `String.prototype.split(sep)` for a nonempty separator. -/
def jsSplit (s sep : String) : List String :=
  (splitOnFuel sep.data s.data.length s.data).map String.mk

/-- Split at every character satisfying `p`, keeping empty pieces.  On a
trimmed string, this composed with dropping empty pieces agrees with the
JS `split(/\s+/)` of the source. -/
def splitWhenAux (p : Char → Bool) : List Char → List Char → List (List Char)
  | [], acc => [acc.reverse]
  | c :: cs, acc =>
      if p c then acc.reverse :: splitWhenAux p cs []
      else splitWhenAux p cs (c :: acc)

/-- Split a string at every character satisfying `p`. -/
def jsSplitWhen (p : Char → Bool) (s : String) : List String :=
  (splitWhenAux p s.data []).map String.mk

/-- The single-quote character, `'`. -/
def squoteChar : Char := Char.ofNat 39

/-- The double-quote character, `"`. -/
def dquoteChar : Char := Char.ofNat 34

/-- The single-quote character as a one-character string. -/
def squoteStr : String := String.mk [squoteChar]

/-- The double-quote character as a one-character string. -/
def dquoteStr : String := String.mk [dquoteChar]

/-- JS `String.prototype.includes` for a nonempty search string. -/
def strContains (s sub : String) : Bool :=
  (List.range (s.toList.length + 1)).any (fun i => sub.toList.isPrefixOf (s.toList.drop i))

/-! ### `Number(str)` -/

/-- Decimal digit run to a natural number. -/
def digitsToNat (ds : List Char) : Nat :=
  ds.foldl (fun n c => n * 10 + (c.toNat - 48)) 0

/-- JS `Number(str)` for the string shapes the engine can meet: optional
sign followed by decimal digits with an optional fraction part.  `none`
models NaN.  The exotic accepted forms of `Number` (exponents, hex,
`Infinity`) are outside the model; they would be classified as NaN here,
and no literal of those shapes occurs in the claims. -/
def jsToNumber (s : String) : Option Rat :=
  let t := jsTrimStr s
  if t = "" then some 0
  else
    let (neg, body) :=
      if startsWithStr t "-" then (true, dropFirstChar t)
      else if startsWithStr t "+" then (false, dropFirstChar t)
      else (false, t)
    let mag : Option Rat :=
      match jsSplit body "." with
      | [intPart] =>
          if intPart ≠ "" ∧ intPart.data.all Char.isDigit then
            some ((digitsToNat intPart.data : Nat) : Rat)
          else none
      | [intPart, fracPart] =>
          if (intPart ≠ "" ∨ fracPart ≠ "") ∧ intPart.data.all Char.isDigit
              ∧ fracPart.data.all Char.isDigit then
            some (((digitsToNat intPart.data * 10 ^ fracPart.data.length +
                digitsToNat fracPart.data : Nat) : Rat) / ((10 : Rat) ^ fracPart.data.length))
          else none
      | _ => none
    mag.map (fun m => if neg then -m else m)

/-! ### `_parseValue` and `_parseValues` -/

/-- Model of `_parseValue(str)`: quoted string (quotes stripped), `null`, `true`,
`false`, number, else the raw string. -/
def parseValue (str : String) : Value :=
  if startsWithStr str squoteStr ∧ endsWithStr str squoteStr then
    .vStr (dropFirstLastChar str)
  else if startsWithStr str dquoteStr ∧ endsWithStr str dquoteStr then
    .vStr (dropFirstLastChar str)
  else if jsToLower str = "null" then .vNull
  else if jsToLower str = "true" then .vBool true
  else if jsToLower str = "false" then .vBool false
  else
    match jsToNumber str with
    | some n => .vNum n
    | none => .vStr str

/-- The character loop of `_parseValues`: state is (remaining characters,
`current`, `inQuotes`, `quoteChar`, accumulated `values`).  Note that on a
closing quote the source pushes the accumulated `current` — quotes and any
leading whitespace included — without running it through `_parseValue`. -/
def parseValuesAux : List Char → String → Bool → Char → List Value → List Value
  | [], current, _, _, values =>
      if jsTrimStr current ≠ "" then values ++ [parseValue (jsTrimStr current)] else values
  | c :: cs, current, inQuotes, quoteChar, values =>
      if (c = squoteChar ∨ c = dquoteChar) ∧ inQuotes = false then
        parseValuesAux cs (current.push c) true c values
      else if c = quoteChar ∧ inQuotes = true then
        parseValuesAux cs "" false quoteChar (values ++ [.vStr (current.push c)])
      else if c = ',' ∧ inQuotes = false then
        parseValuesAux cs "" inQuotes quoteChar
          (if jsTrimStr current ≠ "" then values ++ [parseValue (jsTrimStr current)] else values)
      else
        parseValuesAux cs (current.push c) inQuotes quoteChar values

/-- Model of `_parseValues(valuesStr)`.  The source initialises `quoteChar` to the
empty string; it is only read under `inQuotes`, by which time it has been
assigned, so any initial character is equivalent — a space is used. -/
def parseValues (valuesStr : String) : List Value :=
  parseValuesAux valuesStr.toList "" false ' ' []

/-! ### JS equality and ordering (the coercions behind `==`, `===`, `<` …) -/

/-- JS `ToNumber` of a boolean. -/
def boolToRat (b : Bool) : Rat := if b then 1 else 0

/-- JS loose equality `==` restricted to the stored value kinds. -/
def looseEq : Value → Value → Bool
  | .vNull, .vNull => true
  | .vBool a, .vBool b => a == b
  | .vNum a, .vNum b => a == b
  | .vStr a, .vStr b => a == b
  | .vNum a, .vStr s => match jsToNumber s with | some b => a == b | none => false
  | .vStr s, .vNum b => match jsToNumber s with | some a => a == b | none => false
  | .vBool a, .vNum b => boolToRat a == b
  | .vNum a, .vBool b => a == boolToRat b
  | .vBool a, .vStr s => match jsToNumber s with | some b => boolToRat a == b | none => false
  | .vStr s, .vBool b => match jsToNumber s with | some a => a == boolToRat b | none => false
  | _, _ => false

/-- Loose equality `==` including `undefined`: `undefined == undefined` and
`undefined == null` are true. -/
def looseEqU : JSVal → JSVal → Bool
  | none, none => true
  | none, some .vNull => true
  | some .vNull, none => true
  | none, some _ => false
  | some _, none => false
  | some a, some b => looseEq a b

/-- Strict equality `===` including `undefined`: same kind and same value. -/
def strictEqU : JSVal → JSVal → Bool
  | none, none => true
  | some a, some b => a == b
  | _, _ => false

/-- JS `ToNumber` of a possibly-undefined value; `none` models NaN. -/
def toNumU : JSVal → Option Rat
  | none => none
  | some .vNull => some 0
  | some (.vBool b) => some (boolToRat b)
  | some (.vNum n) => some n
  | some (.vStr s) => jsToNumber s

/-- Code-point lexicographic order on character lists (JS string `<`). -/
def charListLt : List Char → List Char → Bool
  | [], [] => false
  | [], _ :: _ => true
  | _ :: _, [] => false
  | a :: as, b :: bs =>
      if a < b then true else if b < a then false else charListLt as bs

/-- JS string relational comparison. -/
def strLt (s t : String) : Bool := charListLt s.toList t.toList

/-- JS `<`: both strings → lexicographic; otherwise numeric with NaN
yielding false. -/
def jsLt (a b : JSVal) : Bool :=
  match a, b with
  | some (.vStr s), some (.vStr t) => strLt s t
  | _, _ =>
      match toNumU a, toNumU b with
      | some x, some y => decide (x < y)
      | _, _ => false

/-- JS `>`. -/
def jsGt (a b : JSVal) : Bool :=
  match a, b with
  | some (.vStr s), some (.vStr t) => strLt t s
  | _, _ =>
      match toNumU a, toNumU b with
      | some x, some y => decide (y < x)
      | _, _ => false

/-- JS `<=`: the negation of `>` unless a NaN is involved. -/
def jsLe (a b : JSVal) : Bool :=
  match a, b with
  | some (.vStr s), some (.vStr t) => !(strLt t s)
  | _, _ =>
      match toNumU a, toNumU b with
      | some x, some y => decide (x ≤ y)
      | _, _ => false

/-- JS `>=`. -/
def jsGe (a b : JSVal) : Bool :=
  match a, b with
  | some (.vStr s), some (.vStr t) => !(strLt s t)
  | _, _ =>
      match toNumU a, toNumU b with
      | some x, some y => decide (y ≤ x)
      | _, _ => false

/-! ### `_evaluateWhere` -/

/-- The operator priority list of `_evaluateWhere`, in source order. -/
def whereOperators : List String := [">=", "<=", "!=", "<>", "=", "<", ">"]

/-- Model of `_evaluateWhere(row, condition)`: the first operator of the priority
list contained in the condition text decides the split; the left side names
the column (a missing column reads `undefined`), the right side goes
through `_parseValue`.  A condition with no operator is false. -/
def evaluateWhere (row : Row) (condition : String) : Bool :=
  match whereOperators.find? (fun op => strContains condition op) with
  | none => false
  | some op =>
      match (jsSplit condition op).map jsTrimStr with
      | left :: right :: _ =>
          let leftVal : JSVal := jsGet row left
          let rightVal : JSVal := some (parseValue right)
          if op = "=" then looseEqU leftVal rightVal
          else if op = "!=" ∨ op = "<>" then !(looseEqU leftVal rightVal)
          else if op = "<" then jsLt leftVal rightVal
          else if op = ">" then jsGt leftVal rightVal
          else if op = "<=" then jsLe leftVal rightVal
          else jsGe leftVal rightVal
      | _ => false

/-! ### The regexes of the source

Each handler matches the whole statement with one regex.  The pattern
shapes used are: case-insensitive literals, greedy capturing `(\w+)`,
greedy capturing `(.+)` (which does not cross line terminators), and a
trailing optional group `(?: WHERE (.+))?`.  `matchPats` implements the
standard backtracking semantics — greedy pieces try their longest
candidate first — and `regexMatch` the leftmost-match rule of
`String.prototype.match`. -/

/-- A piece of one of the source's regexes. -/
inductive Pat where
  | lit (s : String)
  | wordPlus
  | dotPlus
  | optTail (head : String)

/-- JS `\w`: ASCII letters, digits and underscore. -/
def isWordChar (c : Char) : Bool := c.isAlphanum || c == '_'

/-- JS `.` without the `s` flag: any character except a line terminator. -/
def isDotChar (c : Char) : Bool := c != '\n' && c != '\r'

/-- Case-insensitive character comparison (the `i` flag). -/
def charCI (a b : Char) : Bool := a.toUpper == b.toUpper

/-- Strip a case-insensitive literal prefix, returning the rest. -/
def stripPrefixCI : List Char → List Char → Option (List Char)
  | [], cs => some cs
  | _ :: _, [] => none
  | p :: ps, c :: cs => if charCI p c then stripPrefixCI ps cs else none

/-- Match a pattern list at the start of the input, producing the list of
captures in group order (the optional group captures `none` when unused).
Greedy pieces backtrack from their longest candidate; an exhausted pattern
succeeds regardless of remaining input (the regexes carry no anchors). -/
def matchPats : List Pat → List Char → Option (List (Option String))
  | [], _ => some []
  | .lit s :: ps, cs =>
      match stripPrefixCI s.toList cs with
      | some rest => matchPats ps rest
      | none => none
  | .wordPlus :: ps, cs =>
      let run := cs.takeWhile isWordChar
      (List.range run.length).findSome? (fun i =>
        let k := run.length - i
        (matchPats ps (cs.drop k)).map (fun caps => some (String.mk (cs.take k)) :: caps))
  | .dotPlus :: ps, cs =>
      let run := cs.takeWhile isDotChar
      (List.range run.length).findSome? (fun i =>
        let k := run.length - i
        (matchPats ps (cs.drop k)).map (fun caps => some (String.mk (cs.take k)) :: caps))
  | .optTail h :: ps, cs =>
      match stripPrefixCI h.toList cs with
      | some rest =>
          let run := rest.takeWhile isDotChar
          match (List.range run.length).findSome? (fun i =>
              let k := run.length - i
              (matchPats ps (rest.drop k)).map
                (fun caps => some (String.mk (rest.take k)) :: caps)) with
          | some r => some r
          | none => (matchPats ps cs).map (fun caps => none :: caps)
      | none => (matchPats ps cs).map (fun caps => none :: caps)

/-- JS `String.prototype.match`: the match may begin at any position; the
leftmost successful start wins. -/
def regexMatch (pats : List Pat) (s : String) : Option (List (Option String)) :=
  (List.range (s.toList.length + 1)).findSome? (fun i => matchPats pats (s.toList.drop i))

/-- The regex `/CREATE TABLE (\w+) \((.+)\)/i` -/
def matchCreate (sql : String) : Option (String × String) :=
  match regexMatch [.lit "CREATE TABLE ", .wordPlus, .lit " (", .dotPlus, .lit ")"] sql with
  | some [some t, some cols] => some (t, cols)
  | _ => none

/-- The regex `/INSERT INTO (\w+) VALUES \((.+)\)/i` -/
def matchInsert (sql : String) : Option (String × String) :=
  match regexMatch [.lit "INSERT INTO ", .wordPlus, .lit " VALUES (", .dotPlus, .lit ")"] sql with
  | some [some t, some vals] => some (t, vals)
  | _ => none

/-- The regex `/SELECT (.+) FROM (\w+)(?: WHERE (.+))?/i` -/
def matchSelect (sql : String) : Option (String × String × Option String) :=
  match regexMatch [.lit "SELECT ", .dotPlus, .lit " FROM ", .wordPlus, .optTail " WHERE "] sql with
  | some [some cols, some t, w] => some (cols, t, w)
  | _ => none

/-- The regex `/UPDATE (\w+) SET (.+)(?: WHERE (.+))?/i`.  Nothing after the greedy
`(.+)` forces backtracking, so the optional WHERE group can never
participate: the whole tail of the statement lands in the SET capture. -/
def matchUpdate (sql : String) : Option (String × String × Option String) :=
  match regexMatch [.lit "UPDATE ", .wordPlus, .lit " SET ", .dotPlus, .optTail " WHERE "] sql with
  | some [some t, some setC, w] => some (t, setC, w)
  | _ => none

/-- The regex `/DELETE FROM (\w+)(?: WHERE (.+))?/i` -/
def matchDelete (sql : String) : Option (String × Option String) :=
  match regexMatch [.lit "DELETE FROM ", .wordPlus, .optTail " WHERE "] sql with
  | some [some t, w] => some (t, w)
  | _ => none

/-- The regex `/DROP TABLE (\w+)/i` -/
def matchDrop (sql : String) : Option String :=
  match regexMatch [.lit "DROP TABLE ", .wordPlus] sql with
  | some [some t] => some t
  | _ => none

/-- The regex `/DESCRIBE (\w+)/i` -/
def matchDescribe (sql : String) : Option String :=
  match regexMatch [.lit "DESCRIBE ", .wordPlus] sql with
  | some [some t] => some t
  | _ => none

/-! ### The handlers -/

/-- One step of the `forEach` of `_createTable` over the comma-split column
definitions: trim, split on whitespace runs, read the name and the
uppercased type; reading the type of a one-token definition throws in the
source (`parts[1].toUpperCase()` on `undefined`), modelled by `none`.  A
definition containing the token `PRIMARY` (case-sensitive, as
`Array.prototype.includes` is) sets the primary key — last one wins — and
one containing `UNIQUE` records the column as unique. -/
def parseColDef (acc : List (String × String) × Constraints) (colDef : String) :
    Option (List (String × String) × Constraints) :=
  let parts := (jsSplitWhen isJsWhitespace (jsTrimStr colDef)).filter (fun p => p ≠ "")
  match parts with
  | colName :: colType :: _ =>
      let columns := jsSet acc.1 colName (jsToUpper colType)
      let cs := acc.2
      let cs := if parts.contains "PRIMARY" then { cs with primaryKey := some colName } else cs
      let cs := if parts.contains "UNIQUE" then
          { cs with uniqueCols :=
              if cs.uniqueCols.contains colName then cs.uniqueCols
              else cs.uniqueCols ++ [colName] }
        else cs
      some (columns, cs)
  | _ => none

/-- All column definitions of a CREATE, processed left to right; the throw
aborts the whole statement before any table is registered. -/
def parseColumnDefs (defs : List String) : Option (List (String × String) × Constraints) :=
  defs.foldlM parseColDef ([], ⟨none, []⟩)

/-- Model of `_createTable(sql)`. -/
def createTable (tables : Tables) (sql : String) : Tables × Result :=
  match matchCreate sql with
  | none => (tables, .error "Invalid CREATE TABLE syntax")
  | some (tableName, columnsDef) =>
      if (jsGet tables tableName).isSome then
        (tables, .error s!"Table {tableName} already exists")
      else
        match parseColumnDefs (jsSplit columnsDef ",") with
        | none => (tables, .error "Cannot read properties of undefined (reading 'toUpperCase')")
        | some (columns, constraints) =>
            (jsSet tables tableName ⟨columns, constraints, []⟩,
              .message s!"Table {tableName} created")

/-- Rendering of a JS value by string interpolation, used in the
duplicate-key message.  Display of non-integer numbers is not modelled
digit-for-digit (no claim reads that message). -/
def jsValToString : JSVal → String
  | none => "undefined"
  | some .vNull => "null"
  | some (.vBool b) => if b then "true" else "false"
  | some (.vNum n) => if n.den == 1 then toString n.num else toString n
  | some (.vStr s) => s

/-- Model of `_insert(sql)`.  The duplicate-primary-key check uses strict equality
`===` (`row[pkCol] === pkValue`), and runs only when
`table.constraints.primaryKey` is truthy (a set, nonempty name).  The row
is built by pairing declared column names with values positionally. -/
def insert (tables : Tables) (sql : String) : Tables × Result :=
  match matchInsert sql with
  | none => (tables, .error "Invalid INSERT syntax")
  | some (tableName, valuesStr) =>
      match jsGet tables tableName with
      | none => (tables, .error s!"Table {tableName} doesn't exist")
      | some table =>
          let values := parseValues valuesStr
          let columnNames := table.columns.map (fun p => p.1)
          let expected := columnNames.length
          let got := values.length
          if got ≠ expected then
            (tables, .error s!"Expected {expected} values, got {got}")
          else
            let pkTruthy : Bool := match table.constraints.primaryKey with
              | some pk => pk != ""
              | none => false
            let dup := match table.constraints.primaryKey with
              | some pkCol =>
                  let pkValue : JSVal := match columnNames.findIdx? (fun c => c == pkCol) with
                    | some i => values[i]?
                    | none => none
                  ((table.rows.find? (fun row => strictEqU (jsGet row pkCol) pkValue)).isSome,
                    pkValue)
              | none => (false, none)
            if pkTruthy && dup.1 then
              (tables, .error s!"Duplicate primary key: {jsValToString dup.2}")
            else
              let row := (columnNames.zip values).foldl (fun r p => jsSet r p.1 p.2) []
              (jsSet tables tableName { table with rows := table.rows ++ [row] },
                .message "1 row inserted")

/-- Model of `_select(sql)`: optional WHERE filter, then projection.  `*` resolves
to the declared columns; otherwise the comma-split, trimmed list is used
and names missing from a row are silently omitted (`col in row`). -/
def select (tables : Tables) (sql : String) : Result :=
  match matchSelect sql with
  | none => .error "Invalid SELECT syntax"
  | some (columns, tableName, whereClause) =>
      match jsGet tables tableName with
      | none => .error s!"Table {tableName} doesn't exist"
      | some table =>
          let rows := match whereClause with
            | some w => table.rows.filter (fun row => evaluateWhere row w)
            | none => table.rows
          let columnNames := if columns = "*" then table.columns.map (fun p => p.1)
            else (jsSplit columns ",").map jsTrimStr
          let result := rows.map (fun row =>
            columnNames.foldl (fun sel col =>
              match jsGet row col with
              | some v => jsSet sel col v
              | none => sel) [])
          .dataset result result.length (some columnNames)

/-- Model of `_showTables()`. -/
def showTables (tables : Tables) : Result :=
  let names := tables.map (fun p => p.1)
  .dataset (names.map (fun n => [("Table", Value.vStr n)])) names.length none

/-- Model of `_describe(sql)`: one `{Field, Type, Key}` row per declared column. -/
def describe (tables : Tables) (sql : String) : Result :=
  match matchDescribe sql with
  | none => .error "Invalid DESCRIBE syntax"
  | some tableName =>
      match jsGet tables tableName with
      | none => .error s!"Table {tableName} doesn't exist"
      | some table =>
          let columns := table.columns.map (fun p =>
            [("Field", Value.vStr p.1), ("Type", Value.vStr p.2),
             ("Key", Value.vStr (if table.constraints.primaryKey = some p.1 then "PRI" else ""))])
          .dataset columns columns.length none

/-- The SET-clause loop of `_update`: each comma-separated pair is split on
`=` and trimmed; a pair with no `=` makes the source call `_parseValue` on
`undefined`, which throws (modelled by `none`). -/
def parseSetClause (setClause : String) : Option (List (String × Value)) :=
  (jsSplit setClause ",").foldlM (fun updates pair =>
    match (jsSplit pair "=").map jsTrimStr with
    | col :: val :: _ => some (jsSet updates col (parseValue val))
    | _ => none) []

/-- Model of `_update(sql)`: every row passing the WHERE test (every row when the
capture is absent — which, per `matchUpdate`, is always) is overwritten in
place with the parsed assignments. -/
def update (tables : Tables) (sql : String) : Tables × Result :=
  match matchUpdate sql with
  | none => (tables, .error "Invalid UPDATE syntax")
  | some (tableName, setClause, whereClause) =>
      match jsGet tables tableName with
      | none => (tables, .error s!"Table {tableName} doesn't exist")
      | some table =>
          match parseSetClause setClause with
          | none => (tables, .error "Cannot read properties of undefined (reading 'startsWith')")
          | some updates =>
              let hits := fun row => match whereClause with
                | none => true
                | some w => evaluateWhere row w
              let newRows := table.rows.map (fun row =>
                if hits row then jsAssign row updates else row)
              let affected := (table.rows.filter hits).length
              (jsSet tables tableName { table with rows := newRows },
                .message s!"{affected} row(s) updated")

/-- Model of `_delete(sql)`: keep the rows failing the WHERE test; no WHERE clears
the table. -/
def delete (tables : Tables) (sql : String) : Tables × Result :=
  match matchDelete sql with
  | none => (tables, .error "Invalid DELETE syntax")
  | some (tableName, whereClause) =>
      match jsGet tables tableName with
      | none => (tables, .error s!"Table {tableName} doesn't exist")
      | some table =>
          let initialCount := table.rows.length
          let newRows := match whereClause with
            | some w => table.rows.filter (fun row => !(evaluateWhere row w))
            | none => ([] : List Row)
          let deleted := initialCount - newRows.length
          (jsSet tables tableName { table with rows := newRows },
            .message s!"{deleted} row(s) deleted")

/-- Model of `_dropTable(sql)`. -/
def dropTable (tables : Tables) (sql : String) : Tables × Result :=
  match matchDrop sql with
  | none => (tables, .error "Invalid DROP TABLE syntax")
  | some tableName =>
      if (jsGet tables tableName).isNone then
        (tables, .error s!"Table {tableName} doesn't exist")
      else
        (jsDelete tables tableName, .message s!"Table {tableName} dropped")

/-! ### `execute` -/

/-- The normalisation in `execute`: trim, then strip one trailing `;`. -/
def normalizeSql (sqlRaw : String) : String :=
  let s := jsTrimStr sqlRaw
  if endsWithStr s ";" then dropLastChar s else s

/-- The whitespace token split of `execute`: split on single spaces and
drop empty pieces. -/
def tokensOf (sqlRaw : String) : List String :=
  (jsSplit (normalizeSql sqlRaw) " ").filter (fun p => p ≠ "")

/-- The `switch` inside the `try` of `execute`: route on the uppercased
leading keyword.  Handlers that throw surface as error Results; SELECT,
SHOW and DESCRIBE never touch the tables. -/
def dispatch (tables : Tables) (command sql : String) : Tables × Result :=
  if command = "CREATE" then createTable tables sql
  else if command = "INSERT" then insert tables sql
  else if command = "SELECT" then (tables, select tables sql)
  else if command = "UPDATE" then update tables sql
  else if command = "DELETE" then delete tables sql
  else if command = "DROP" then dropTable tables sql
  else if command = "SHOW" then (tables, showTables tables)
  else if command = "DESCRIBE" then (tables, describe tables sql)
  else (tables, .error s!"Unknown command: {command}")

/-- Model of `execute(sql)`: push the raw string onto the history, normalise,
extract the leading keyword and dispatch.  The keyword extraction
`parts[0].toUpperCase()` runs before the `try`, so an input with no tokens
(empty or whitespace-only) raises an uncaught TypeError — modelled by
`none`. -/
def execute (db : DB) (sqlRaw : String) : Option (DB × Result) :=
  let history := db.history ++ [sqlRaw]
  let sql := normalizeSql sqlRaw
  match tokensOf sqlRaw with
  | [] => none
  | first :: _ =>
      let pr := dispatch db.tables (jsToUpper first) sql
      some ({ tables := pr.1, history := history }, pr.2)

/-- Model of `toJSON()`: the snapshot is the tables mapping itself. -/
def toJSON (db : DB) : Tables := db.tables

/-- Model of `fromJSON(data)`: replace the tables mapping verbatim. -/
def fromJSON (db : DB) (data : Tables) : DB := { db with tables := data }

/-- Model of `new SimpleRDBMS()`. -/
def freshDB : DB := { tables := [], history := [] }

/-- Run a statement list left to right, stopping at an uncaught fault. -/
def runStmts (db : DB) : List String → Option DB
  | [] => some db
  | s :: rest =>
      match execute db s with
      | some (db2, _) => runStmts db2 rest
      | none => none

/-- The Result of one statement, ignoring the new state. -/
def runResult (db : DB) (sql : String) : Option Result :=
  (execute db sql).map (fun p => p.2)

/-! ### Specification predicates used by the theorems -/

/-- The key list of a JS object modelled as an association list. -/
def keysOf {α : Type} (m : List (String × α)) : List String := m.map (fun p => p.1)

/-- Well-formedness of one table: the declared column names are distinct
(JS object keys are), and every row's key list is exactly the declared
column list. -/
abbrev tableWF (t : Table) : Prop :=
  (keysOf t.columns).Nodup ∧ ∀ row ∈ t.rows, keysOf row = keysOf t.columns

/-- Well-formedness of the whole catalog. -/
abbrev tablesWF (ts : Tables) : Prop := ∀ p ∈ ts, tableWF p.2

/-- A statement is a benign UPDATE for the row-key invariant when every
column its SET clause assigns is declared in the targeted table (vacuously
true for anything that is not a well-formed UPDATE over an existing
table). -/
def updateSetsDeclared (ts : Tables) (sql : String) : Bool :=
  match matchUpdate sql with
  | none => true
  | some (t, setC, _) =>
      match jsGet ts t with
      | none => true
      | some table =>
          match parseSetClause setC with
          | none => true
          | some updates =>
              updates.all (fun q => (keysOf table.columns).contains q.1)

/-- A table used by concrete witnesses: `users(id INT PRIMARY KEY)`
holding the single row `{id: 1}`. -/
def demoUsersTable : Table :=
  { columns := [("id", "INT")], constraints := { primaryKey := some "id", uniqueCols := [] },
    rows := [[("id", Value.vNum 1)]] }

/-- A one-table catalog used by concrete witnesses. -/
def demoTables : Tables := [("users", demoUsersTable)]

/-- The demo table after `UPDATE users SET id=9`. -/
def demoUsersTableUpdated : Table :=
  { columns := [("id", "INT")], constraints := { primaryKey := some "id", uniqueCols := [] },
    rows := [[("id", Value.vNum 9)]] }

/-! ## Theorems -/

/-- Model of `_createTable` either leaves the tables untouched or does not report an
error. -/
theorem createTable_frame (ts : Tables) (sql : String) :
    (createTable ts sql).1 = ts ∨ (createTable ts sql).2.isError = false := by
  unfold createTable
  rcases matchCreate sql with _ | ⟨tn, cd⟩
  · exact Or.inl rfl
  · dsimp only
    split
    · exact Or.inl rfl
    · rcases parseColumnDefs (jsSplit cd ",") with _ | ⟨cols, cs⟩
      · exact Or.inl rfl
      · exact Or.inr rfl

/-- Model of `_insert` either leaves the tables untouched or does not report an
error. -/
theorem insert_frame (ts : Tables) (sql : String) :
    (insert ts sql).1 = ts ∨ (insert ts sql).2.isError = false := by
  unfold insert
  rcases matchInsert sql with _ | ⟨tn, vs⟩
  · exact Or.inl rfl
  · dsimp only
    rcases jsGet ts tn with _ | tbl
    · exact Or.inl rfl
    · dsimp only
      split
      · exact Or.inl rfl
      · split
        · exact Or.inl rfl
        · exact Or.inr rfl

/-- Model of `_update` either leaves the tables untouched or does not report an
error. -/
theorem update_frame (ts : Tables) (sql : String) :
    (update ts sql).1 = ts ∨ (update ts sql).2.isError = false := by
  unfold update
  rcases matchUpdate sql with _ | ⟨tn, setC, w⟩
  · exact Or.inl rfl
  · dsimp only
    rcases jsGet ts tn with _ | tbl
    · exact Or.inl rfl
    · dsimp only
      rcases parseSetClause setC with _ | ups
      · exact Or.inl rfl
      · exact Or.inr rfl

/-- Model of `_delete` either leaves the tables untouched or does not report an
error. -/
theorem delete_frame (ts : Tables) (sql : String) :
    (delete ts sql).1 = ts ∨ (delete ts sql).2.isError = false := by
  unfold delete
  rcases matchDelete sql with _ | ⟨tn, w⟩
  · exact Or.inl rfl
  · dsimp only
    rcases jsGet ts tn with _ | tbl
    · exact Or.inl rfl
    · exact Or.inr rfl

/-- Model of `_dropTable` either leaves the tables untouched or does not report an
error. -/
theorem dropTable_frame (ts : Tables) (sql : String) :
    (dropTable ts sql).1 = ts ∨ (dropTable ts sql).2.isError = false := by
  unfold dropTable
  rcases matchDrop sql with _ | tn
  · exact Or.inl rfl
  · dsimp only
    split
    · exact Or.inl rfl
    · exact Or.inr rfl

/-- The dispatcher either leaves the tables untouched or does not report an
error. -/
theorem dispatch_frame (ts : Tables) (c sql : String) :
    (dispatch ts c sql).1 = ts ∨ (dispatch ts c sql).2.isError = false := by
  unfold dispatch
  split_ifs
  exacts [createTable_frame ts sql, insert_frame ts sql, Or.inl rfl, update_frame ts sql,
    delete_frame ts sql, dropTable_frame ts sql, Or.inl rfl, Or.inl rfl, Or.inl rfl]

/-- Claim C5.  Every statement whose execution returns an error Result
leaves the catalog exactly as it was: in each handler all failure checks
run before any mutation (in particular a duplicate CREATE, a
duplicate-primary-key INSERT and a wrong-arity INSERT change nothing). -/
theorem c5_error_leaves_tables (db : DB) (sql : String) (db2 : DB) (e : String)
    (hex : execute db sql = some (db2, Result.error e)) : db2.tables = db.tables := by
  unfold execute at hex
  rcases htok : tokensOf sql with _ | ⟨f, rest⟩ <;> rw [htok] at hex
  · simp at hex
  · simp only [Option.some.injEq, Prod.mk.injEq] at hex
    obtain ⟨h1, h2⟩ := hex
    rcases dispatch_frame db.tables (jsToUpper f) (normalizeSql sql) with h | h
    · rw [← h1]
      exact h
    · rw [h2] at h
      simp [Result.isError] at h

/-- Witness for C5 at a concrete input: a duplicate CREATE against an
existing `users` table errors and leaves the catalog untouched. -/
theorem c5_error_leaves_tables_witness :
    (DB.mk demoTables ["CREATE TABLE users (id INT)"]).tables
      = (DB.mk demoTables []).tables :=
  c5_error_leaves_tables (DB.mk demoTables []) "CREATE TABLE users (id INT)"
    (DB.mk demoTables ["CREATE TABLE users (id INT)"]) "Table users already exists"
    (by decide)

/-- Claim C1 (code bug).  `UPDATE t SET x=1 WHERE id=2` on a two-row table
does not update only the `id = 2` row: the greedy `(.+)` of the UPDATE
regex swallows the WHERE clause, so the statement updates **both** rows,
reports "2 row(s) updated", and assigns `x` the junk string `"1 WHERE id"`
obtained by splitting `"x=1 WHERE id=2"` on `=`. -/
theorem c1_update_where_clause_swallowed :
    (runStmts freshDB ["CREATE TABLE t (id INT, x INT)", "INSERT INTO t VALUES (1, 10)",
        "INSERT INTO t VALUES (2, 20)"]).bind
      (fun db => (execute db "UPDATE t SET x=1 WHERE id=2").map
        (fun p => ((jsGet p.1.tables "t").map Table.rows, p.2))) =
    some (some [[("id", Value.vNum 1), ("x", Value.vStr "1 WHERE id")],
                [("id", Value.vNum 2), ("x", Value.vStr "1 WHERE id")]],
          Result.message "2 row(s) updated") := by
  rfl

/-- Claim C2 (code bug).  In the spec's concrete scenario the SELECT does
return a single row with count 1 and `age` 30, but the `name` value is the
string `'Bob'` **with the quote characters retained**: the value-list
scanner of `_parseValues` pushes a quoted token verbatim instead of
passing it through `_parseValue` (whose quote-stripping branch handles
only WHERE and SET literals). -/
theorem c2_insert_keeps_quote_chars :
    ((runStmts freshDB
        ["CREATE TABLE users (id INT PRIMARY KEY, name TEXT, email TEXT UNIQUE, age INT)",
         "INSERT INTO users VALUES (1,'Alice','a@x.com',25)",
         "INSERT INTO users VALUES (2,'Bob','b@x.com',30)"]).bind
      (fun db => runResult db "SELECT name, age FROM users WHERE age >= 30") =
    some (Result.dataset [[("name", Value.vStr "'Bob'"), ("age", Value.vNum 30)]] 1
      (some ["name", "age"]))) ∧ ("'Bob'" : String) ≠ "Bob" :=
  ⟨by rfl, by decide⟩

/-- Claim C3, counterexample.  `execute` does not return a Result for every
input string: for the empty string, a whitespace-only string (including one
made only of the non-ASCII whitespace `trim` also strips, such as NBSP, VT
and FF), or a lone terminator, the keyword extraction
`parts[0].toUpperCase()` runs before the `try` block and raises an uncaught
TypeError. -/
theorem c3_empty_input_uncaught_fault :
    execute freshDB "" = none ∧ execute freshDB "   " = none ∧
      execute freshDB " ; " = none ∧ execute freshDB "\u00A0" = none ∧
      execute freshDB "\x0B\x0C" = none := by
  decide

/-- Claim C3 as amended: `execute` returns a Result exactly for the inputs
that still contain at least one token after trimming JS whitespace and
stripping one trailing terminator (failures inside the dispatched handlers
are converted to error Results); for every input with no token — empty or
consisting only of whitespace and one trailing `;` — the keyword
extraction runs before the `try` block and raises an uncaught fault. -/
theorem c3_result_iff_input_has_token (db : DB) (sqlRaw : String) :
    (execute db sqlRaw).isSome = true ↔ tokensOf sqlRaw ≠ [] := by
  unfold execute
  rcases htok : tokensOf sqlRaw with _ | ⟨f, rest⟩ <;> simp [htok]

/-- Claim C4, counterexample.  An ordering comparison involving null is not
always false: JS coerces null to the number 0, so a row with a null `age`
satisfies `age<30`, and a row with `x = 1` satisfies `x>null`. -/
theorem c4_null_ordering_not_false :
    evaluateWhere [("age", Value.vNull)] "age<30" = true ∧
      evaluateWhere [("x", Value.vNum 1)] "x>null" = true := by
  decide

/-- Claim C4 as amended: in the ordering operators a null operand is
coerced to the number 0, and the comparison is the numeric one against 0 —
false only when the other operand fails numeric coercion (NaN), not
whenever null is involved. -/
theorem c4_null_coerces_to_zero_in_ordering (v : Value) :
    (jsLt (some Value.vNull) (some v)
        = (toNumU (some v)).elim false (fun y => decide ((0 : Rat) < y))) ∧
    (jsLt (some v) (some Value.vNull)
        = (toNumU (some v)).elim false (fun x => decide (x < (0 : Rat)))) ∧
    (jsLe (some Value.vNull) (some v)
        = (toNumU (some v)).elim false (fun y => decide ((0 : Rat) ≤ y))) ∧
    (jsLe (some v) (some Value.vNull)
        = (toNumU (some v)).elim false (fun x => decide (x ≤ (0 : Rat)))) ∧
    (jsGt (some Value.vNull) (some v)
        = (toNumU (some v)).elim false (fun y => decide (y < (0 : Rat)))) ∧
    (jsGt (some v) (some Value.vNull)
        = (toNumU (some v)).elim false (fun x => decide ((0 : Rat) < x))) ∧
    (jsGe (some Value.vNull) (some v)
        = (toNumU (some v)).elim false (fun y => decide (y ≤ (0 : Rat)))) ∧
    (jsGe (some v) (some Value.vNull)
        = (toNumU (some v)).elim false (fun x => decide ((0 : Rat) ≤ x))) := by
  cases v with
  | vNull => simp [jsLt, jsGt, jsLe, jsGe, toNumU]
  | vBool b => simp [jsLt, jsGt, jsLe, jsGe, toNumU]
  | vNum n => simp [jsLt, jsGt, jsLe, jsGe, toNumU]
  | vStr s => cases h : jsToNumber s <;> simp [jsLt, jsGt, jsLe, jsGe, toNumU, h]

/-- Claim C8.  The evaluator finds `<=` before `=` or `<` in its priority
list, so `age<=30` is split at `<=`: for every numeric age `n` the
condition evaluates exactly to `n ≤ 30`, and in particular a row with age
30 satisfies it. -/
theorem c8_le_operator_not_missplit :
    (∀ n : Rat, evaluateWhere [("age", Value.vNum n)] "age<=30" = decide (n ≤ 30)) ∧
      evaluateWhere [("age", Value.vNum 30)] "age<=30" = true :=
  ⟨fun _ => rfl, by decide⟩

/-- The Result of a statement depends only on the tables component of the
state (the history is write-only). -/
theorem runResult_tables_congr (db1 db2 : DB) (sql : String)
    (h : db1.tables = db2.tables) : runResult db1 sql = runResult db2 sql := by
  unfold runResult execute
  rcases htok : tokensOf sql with _ | ⟨f, rest⟩ <;> simp [htok, h]

/-- Claim C9.  Exporting any catalog with the snapshot codec, importing it
into a fresh engine, and running `SELECT * FROM t` gives exactly the
Result (rows, order, columns and count) the original engine gives, for
every table name. -/
theorem c9_snapshot_roundtrip_select (db : DB) (t : String) :
    runResult (fromJSON freshDB (toJSON db)) ("SELECT * FROM " ++ t) =
      runResult db ("SELECT * FROM " ++ t) :=
  runResult_tables_congr _ _ _ rfl

/-- The SELECT branch of the dispatcher passes the tables through. -/
theorem dispatch_select_eq (ts : Tables) (sql : String) :
    dispatch ts "SELECT" sql = (ts, select ts sql) := rfl

/-- The SHOW branch of the dispatcher passes the tables through. -/
theorem dispatch_show_eq (ts : Tables) (sql : String) :
    dispatch ts "SHOW" sql = (ts, showTables ts) := rfl

/-- The DESCRIBE branch of the dispatcher passes the tables through. -/
theorem dispatch_describe_eq (ts : Tables) (sql : String) :
    dispatch ts "DESCRIBE" sql = (ts, describe ts sql) := rfl

/-- Claim C10.  Executing a statement whose leading keyword is SELECT, SHOW
or DESCRIBE — whether it succeeds or errors — leaves the whole catalog
unchanged; only the command history grows, by exactly the raw input. -/
theorem c10_readonly_statements_frame (db : DB) (sql : String) (db2 : DB) (r : Result)
    (f : String) (rest : List String) (htok : tokensOf sql = f :: rest)
    (hcmd : jsToUpper f = "SELECT" ∨ jsToUpper f = "SHOW" ∨ jsToUpper f = "DESCRIBE")
    (hex : execute db sql = some (db2, r)) :
    db2.tables = db.tables ∧ db2.history = db.history ++ [sql] := by
  unfold execute at hex
  rw [htok] at hex
  dsimp only at hex
  rcases hcmd with h | h | h <;> rw [h] at hex <;>
    simp only [dispatch_select_eq, dispatch_show_eq, dispatch_describe_eq,
      Option.some.injEq, Prod.mk.injEq] at hex <;>
    obtain ⟨h1, _⟩ := hex <;> rw [← h1] <;> exact ⟨rfl, rfl⟩

/-- Witness for C10 at a concrete input: a SELECT against a missing table
errors, and the catalog is unchanged while the history grew by the
statement. -/
theorem c10_readonly_statements_frame_witness :
    (DB.mk demoTables ["SELECT * FROM posts"]).tables = (DB.mk demoTables []).tables ∧
      (DB.mk demoTables ["SELECT * FROM posts"]).history =
        (DB.mk demoTables []).history ++ ["SELECT * FROM posts"] :=
  c10_readonly_statements_frame (DB.mk demoTables []) "SELECT * FROM posts"
    (DB.mk demoTables ["SELECT * FROM posts"]) (Result.error "Table posts doesn't exist")
    "SELECT" ["*", "FROM", "posts"] (by decide) (Or.inl (by decide)) (by decide)

/-- Claim C6, counterexample.  The duplicate-primary-key check is not the
coercive equality of §4.5: after a row holds the string `"1"` as its
primary key, inserting the number `1` succeeds and appends a second row,
although `"1" == 1` holds coercively (the code compares with `===`). -/
theorem c6_coercive_duplicate_not_rejected :
    ((runStmts freshDB ["CREATE TABLE t (id INT PRIMARY KEY)", "INSERT INTO t VALUES (5)",
        "UPDATE t SET id='1'"]).bind
      (fun db => (execute db "INSERT INTO t VALUES (1)").map
        (fun p => ((jsGet p.1.tables "t").map Table.rows, p.2))) =
    some (some [[("id", Value.vStr "1")], [("id", Value.vNum 1)]],
      Result.message "1 row inserted")) ∧
    looseEq (Value.vStr "1") (Value.vNum 1) = true :=
  ⟨by rfl, by decide⟩

/-- Claim C6 as amended: for a table with a declared (nonempty) primary
key and an INSERT of the right arity, the statement reports an error — the
duplicate-key one — if and only if some existing row's primary-key value
equals the inserted one under **strict** equality `===` (same kind and
same value; no numeric-string or boolean coercion). -/
theorem c6_duplicate_check_is_strict (tables : Tables) (sql tableName valuesStr : String)
    (table : Table) (pkCol : String)
    (hm : matchInsert sql = some (tableName, valuesStr))
    (ht : jsGet tables tableName = some table)
    (hpk : table.constraints.primaryKey = some pkCol)
    (hne : pkCol ≠ "")
    (har : (parseValues valuesStr).length = table.columns.length) :
    (insert tables sql).2.isError = true ↔
      ∃ row ∈ table.rows,
        strictEqU (jsGet row pkCol)
          (match (table.columns.map (fun p => p.1)).findIdx? (fun c => c == pkCol) with
            | some i => (parseValues valuesStr)[i]?
            | none => none) = true := by
  unfold insert
  rw [hm]
  dsimp only
  rw [ht]
  dsimp only
  rw [hpk]
  dsimp only
  rw [if_neg (by simp [har])]
  have hbne : (pkCol != "") = true := by simp [hne]
  rw [hbne]
  simp only [Bool.true_and]
  cases hf : (table.rows.find? (fun row => strictEqU (jsGet row pkCol)
      (match (table.columns.map (fun p => p.1)).findIdx? (fun c => c == pkCol) with
        | some i => (parseValues valuesStr)[i]?
        | none => none))).isSome with
  | true =>
      rw [if_pos rfl]
      simp only [Result.isError, true_iff]
      exact List.find?_isSome.1 hf
  | false =>
      rw [if_neg (by simp)]
      simp only [Result.isError, Bool.false_eq_true, false_iff, not_exists]
      intro row h
      rw [List.find?_isSome.2 ⟨row, h.1, h.2⟩] at hf
      exact absurd hf (by simp)

/-- Witness for C6's amended theorem: inserting `1` again into the demo
table (whose row already holds the number `1`) errors. -/
theorem c6_duplicate_check_is_strict_witness :
    (insert demoTables "INSERT INTO users VALUES (1)").2.isError = true :=
  (c6_duplicate_check_is_strict demoTables "INSERT INTO users VALUES (1)" "users" "1"
      demoUsersTable "id" (by decide) (by decide) (by decide) (by decide) (by decide)).2
    ⟨[("id", Value.vNum 1)], by decide, by decide⟩

/-- Overwriting an existing key preserves the key list of a JS object. -/
theorem jsSet_keys_of_found {α : Type} (m : List (String × α)) (k : String) (v : α)
    (h : (m.find? (fun p => p.1 == k)).isSome = true) :
    keysOf (jsSet m k v) = keysOf m := by
  unfold keysOf jsSet
  rw [if_pos h, List.map_map]
  apply List.map_congr_left
  intro p hp
  dsimp only [Function.comp]
  by_cases hb : (p.1 == k) = true
  · rw [if_pos hb]
    exact (eq_of_beq hb).symm
  · rw [if_neg hb]

/-- Writing a fresh key appends it to the key list of a JS object. -/
theorem jsSet_keys_of_missing {α : Type} (m : List (String × α)) (k : String) (v : α)
    (h : m.find? (fun p => p.1 == k) = none) :
    keysOf (jsSet m k v) = keysOf m ++ [k] := by
  unfold keysOf jsSet
  rw [if_neg (by simp [h]), List.map_append]
  rfl

/-- A key whose lookup fails is not in the key list. -/
theorem key_not_mem_of_find_none {α : Type} (m : List (String × α)) (k : String)
    (h : m.find? (fun p => p.1 == k) = none) : k ∉ keysOf m := by
  intro hk
  unfold keysOf at hk
  rcases List.mem_map.1 hk with ⟨p, hp, hpk⟩
  exact List.find?_eq_none.1 h p hp (by simp [hpk])

/-- A key present in the key list has a successful lookup. -/
theorem find_isSome_of_key_mem {α : Type} (m : List (String × α)) (k : String)
    (h : k ∈ keysOf m) : (m.find? (fun p => p.1 == k)).isSome = true := by
  unfold keysOf at h
  rcases List.mem_map.1 h with ⟨p, hp, hpk⟩
  exact List.find?_isSome.2 ⟨p, hp, by simp [hpk]⟩

/-- Writing with `jsSet` keeps the key list duplicate-free. -/
theorem jsSet_keys_nodup {α : Type} (m : List (String × α)) (k : String) (v : α)
    (h : (keysOf m).Nodup) : (keysOf (jsSet m k v)).Nodup := by
  cases hf : m.find? (fun p => p.1 == k) with
  | none =>
      rw [jsSet_keys_of_missing m k v hf, List.nodup_append]
      refine ⟨h, by simp, ?_⟩
      intro a ha hb
      simp only [List.mem_singleton] at hb
      exact key_not_mem_of_find_none m k hf (hb ▸ ha)
  | some q =>
      rw [jsSet_keys_of_found m k v (by simp [hf])]
      exact h

/-- Folding `jsSet` over assignments whose keys all already exist leaves
the key list unchanged (the case of a well-formed UPDATE). -/
theorem foldl_jsSet_keys_mem (ups : List (String × Value)) :
    ∀ r : Row, (∀ q ∈ ups, q.1 ∈ keysOf r) →
      keysOf (ups.foldl (fun r q => jsSet r q.1 q.2) r) = keysOf r := by
  induction ups with
  | nil => intro r _; rfl
  | cons q ups ih =>
      intro r hall
      have hkeys : keysOf (jsSet r q.1 q.2) = keysOf r :=
        jsSet_keys_of_found r q.1 q.2 (find_isSome_of_key_mem r q.1 (hall q (by simp)))
      rw [List.foldl_cons,
        ih (jsSet r q.1 q.2) (fun q' hq' => by rw [hkeys]; exact hall q' (List.mem_cons_of_mem q hq')),
        hkeys]

/-- Folding `jsSet` over assignments with distinct keys, none of which is
present yet, appends exactly those keys (the case of INSERT's row
construction). -/
theorem foldl_jsSet_keys_fresh (ps : List (String × Value)) :
    ∀ r : Row, (keysOf ps).Nodup → (∀ q ∈ ps, q.1 ∉ keysOf r) →
      keysOf (ps.foldl (fun r q => jsSet r q.1 q.2) r) = keysOf r ++ keysOf ps := by
  induction ps with
  | nil => intro r _ _; simp [keysOf]
  | cons q ps ih =>
      intro r hnd hfresh
      have hnone : r.find? (fun p => p.1 == q.1) = none := by
        rw [List.find?_eq_none]
        intro p hp hbe
        exact hfresh q (by simp) (List.mem_map.2 ⟨p, hp, eq_of_beq hbe⟩)
      have hstep : keysOf (jsSet r q.1 q.2) = keysOf r ++ [q.1] :=
        jsSet_keys_of_missing r q.1 q.2 hnone
      have hcons : (q.1 :: keysOf ps).Nodup := by simpa [keysOf] using hnd
      have hfresh2 : ∀ p ∈ ps, p.1 ∉ keysOf (jsSet r q.1 q.2) := by
        intro p hp
        rw [hstep]
        intro hmem
        rcases List.mem_append.1 hmem with h | h
        · exact hfresh p (List.mem_cons_of_mem q hp) h
        · simp only [List.mem_singleton] at h
          exact (List.nodup_cons.1 hcons).1 (List.mem_map.2 ⟨p, hp, h⟩)
      rw [List.foldl_cons, ih (jsSet r q.1 q.2) (List.nodup_cons.1 hcons).2 hfresh2, hstep,
        List.append_assoc]
      simp [keysOf]

/-- The row built by INSERT from distinct column names and a matching
number of values has exactly the column names as its key list. -/
theorem buildRow_keys (cols : List String) (vals : List Value)
    (hnd : cols.Nodup) (hlen : cols.length ≤ vals.length) :
    keysOf ((cols.zip vals).foldl (fun r q => jsSet r q.1 q.2) ([] : Row)) = cols := by
  have hfst : keysOf (cols.zip vals) = cols := List.map_fst_zip cols vals hlen
  have h := foldl_jsSet_keys_fresh (cols.zip vals) []
    (by rw [hfst]; exact hnd) (by intro q _; simp [keysOf])
  rw [h, hfst]
  rfl

/-- One CREATE column definition keeps the accumulated column keys
duplicate-free. -/
theorem parseColDef_nodup (acc : List (String × String) × Constraints) (d : String)
    (out : List (String × String) × Constraints) (h : parseColDef acc d = some out)
    (hnd : (keysOf acc.1).Nodup) : (keysOf out.1).Nodup := by
  unfold parseColDef at h
  rcases hp : (jsSplitWhen isJsWhitespace (jsTrimStr d)).filter (fun p => p ≠ "") with
      _ | ⟨c1, rest⟩
  · rw [hp] at h
    simp at h
  · rcases rest with _ | ⟨c2, rest2⟩
    · rw [hp] at h
      simp at h
    · rw [hp] at h
      simp only [Option.some.injEq] at h
      rw [← h]
      exact jsSet_keys_nodup acc.1 c1 (jsToUpper c2) hnd

/-- The columns produced by a successful CREATE parse have
duplicate-free keys. -/
theorem parseColumnDefs_nodup (defs : List String)
    (out : List (String × String) × Constraints) (h : parseColumnDefs defs = some out) :
    (keysOf out.1).Nodup := by
  suffices H : ∀ acc : List (String × String) × Constraints, (keysOf acc.1).Nodup →
      defs.foldlM parseColDef acc = some out → (keysOf out.1).Nodup from
    H ([], ⟨none, []⟩) (by simp [keysOf]) h
  clear h
  induction defs with
  | nil =>
      intro acc h1 h2
      simp only [List.foldlM_nil, Option.pure_def, Option.some.injEq] at h2
      rw [← h2]
      exact h1
  | cons d ds ih =>
      intro acc h1 h2
      rw [List.foldlM_cons] at h2
      rcases hd : parseColDef acc d with _ | acc2 <;> rw [hd] at h2
      · simp at h2
      · simp only [Option.bind_eq_bind, Option.some_bind] at h2
        exact ih acc2 (parseColDef_nodup acc d acc2 hd h1) h2

/-- Setting a well-formed table into a well-formed catalog keeps it
well-formed. -/
theorem tablesWF_jsSet (ts : Tables) (k : String) (tbl : Table)
    (hw : tablesWF ts) (ht : tableWF tbl) : tablesWF (jsSet ts k tbl) := by
  intro p hp
  unfold jsSet at hp
  split at hp
  · rcases List.mem_map.1 hp with ⟨q, hq, he⟩
    by_cases hb : (q.1 == k) = true
    · rw [if_pos hb] at he
      rw [← he]
      exact ht
    · rw [if_neg hb] at he
      rw [← he]
      exact hw q hq
  · rcases List.mem_append.1 hp with h | h
    · exact hw p h
    · simp only [List.mem_singleton] at h
      rw [h]
      exact ht

/-- A table read from a well-formed catalog is well-formed. -/
theorem tableWF_of_jsGet (ts : Tables) (k : String) (tbl : Table) (hw : tablesWF ts)
    (h : jsGet ts k = some tbl) : tableWF tbl := by
  unfold jsGet at h
  rcases hf : ts.find? (fun p => p.1 == k) with _ | q <;> rw [hf] at h
  · simp at h
  · simp only [Option.map_some', Option.some.injEq] at h
    rw [← h]
    exact hw q (List.mem_of_find?_eq_some hf)

/-- CREATE TABLE preserves catalog well-formedness: the registered table
has duplicate-free columns and no rows. -/
theorem createTable_preserves_WF (ts : Tables) (sql : String) (hw : tablesWF ts) :
    tablesWF (createTable ts sql).1 := by
  unfold createTable
  rcases matchCreate sql with _ | ⟨tn, cd⟩
  · exact hw
  · dsimp only
    split
    · exact hw
    · rcases hp : parseColumnDefs (jsSplit cd ",") with _ | ⟨cols, cs⟩
      · exact hw
      · refine tablesWF_jsSet ts tn _ hw ⟨parseColumnDefs_nodup _ _ hp, ?_⟩
        intro row hrow
        simp at hrow

/-- INSERT preserves catalog well-formedness: the appended row is built by
pairing the declared column names with the values positionally. -/
theorem insert_preserves_WF (ts : Tables) (sql : String) (hw : tablesWF ts) :
    tablesWF (insert ts sql).1 := by
  unfold insert
  rcases matchInsert sql with _ | ⟨tn, vs⟩
  · exact hw
  · dsimp only
    rcases hg : jsGet ts tn with _ | tbl
    · exact hw
    · dsimp only
      split
      · exact hw
      · split
        · exact hw
        · rename_i harity hdup
          obtain ⟨hnd, hrows⟩ := tableWF_of_jsGet ts tn tbl hw hg
          refine tablesWF_jsSet ts tn _ hw ⟨hnd, ?_⟩
          intro row hrow
          rcases List.mem_append.1 hrow with h | h
          · exact hrows row h
          · simp only [List.mem_singleton] at h
            rw [h]
            exact buildRow_keys (keysOf tbl.columns) (parseValues vs) hnd
              (le_of_eq (by simpa [keysOf] using (not_ne_iff.1 harity).symm))

/-- UPDATE preserves catalog well-formedness whenever every assigned
column is declared (the hypothesis `updateSetsDeclared`). -/
theorem update_preserves_WF (ts : Tables) (sql : String) (hw : tablesWF ts)
    (hupd : updateSetsDeclared ts sql = true) : tablesWF (update ts sql).1 := by
  unfold update
  unfold updateSetsDeclared at hupd
  rcases hm : matchUpdate sql with _ | ⟨tn, setC, w⟩ <;> rw [hm] at hupd <;>
    dsimp only at hupd
  · exact hw
  · dsimp only
    rcases hg : jsGet ts tn with _ | tbl <;> rw [hg] at hupd <;> dsimp only at hupd
    · exact hw
    · dsimp only
      rcases hp : parseSetClause setC with _ | ups <;> rw [hp] at hupd <;>
        dsimp only at hupd
      · exact hw
      · dsimp only
        obtain ⟨hnd, hrows⟩ := tableWF_of_jsGet ts tn tbl hw hg
        refine tablesWF_jsSet ts tn _ hw ⟨hnd, ?_⟩
        intro row hrow
        rcases List.mem_map.1 hrow with ⟨row0, hrow0, he⟩
        rw [← he]
        have hkeys : keysOf row0 = keysOf tbl.columns := hrows row0 hrow0
        split
        · rw [← hkeys]
          refine foldl_jsSet_keys_mem ups row0 ?_
          intro q hq
          rw [hkeys]
          simpa using List.all_eq_true.1 hupd q hq
        · exact hkeys

/-- DELETE preserves catalog well-formedness: surviving rows are a
sub-collection of the old ones. -/
theorem delete_preserves_WF (ts : Tables) (sql : String) (hw : tablesWF ts) :
    tablesWF (delete ts sql).1 := by
  unfold delete
  rcases matchDelete sql with _ | ⟨tn, w⟩
  · exact hw
  · dsimp only
    rcases hg : jsGet ts tn with _ | tbl
    · exact hw
    · dsimp only
      obtain ⟨hnd, hrows⟩ := tableWF_of_jsGet ts tn tbl hw hg
      refine tablesWF_jsSet ts tn _ hw ⟨hnd, ?_⟩
      intro row hrow
      rcases w with _ | wc
      · simp at hrow
      · exact hrows row (List.mem_filter.1 hrow).1

/-- DROP TABLE preserves catalog well-formedness. -/
theorem dropTable_preserves_WF (ts : Tables) (sql : String) (hw : tablesWF ts) :
    tablesWF (dropTable ts sql).1 := by
  unfold dropTable
  rcases matchDrop sql with _ | tn
  · exact hw
  · dsimp only
    split
    · exact hw
    · intro p hp
      exact hw p (List.mem_filter.1 (show p ∈ ts.filter (fun q => q.1 != tn) from hp)).1

/-- Claim C7, counterexample.  The row-key invariant is not preserved by
every statement: `UPDATE t SET b=2` on a table declaring only column `a`
adds the key `b` to the row, so its key set is `{a, b}` while the declared
column set is `{a}`. -/
theorem c7_update_adds_undeclared_key :
    tablesWF freshDB.tables ∧
      (runStmts freshDB ["CREATE TABLE t (a INT)", "INSERT INTO t VALUES (1)",
          "UPDATE t SET b=2"]).map
        (fun db => ((jsGet db.tables "t").map (fun tbl => (tbl.rows.map keysOf, keysOf tbl.columns)),
          decide (tablesWF db.tables))) =
      some (some ([["a", "b"]], ["a"]), false) := by
  exact ⟨by decide, by decide⟩

/-- Claim C7 as amended: every statement preserves the invariant that each
row's key list is exactly its table's declared column list, **provided**
any UPDATE among them assigns only declared columns; an UPDATE whose SET
clause names an undeclared column violates the invariant by adding that
key (see the counterexample). -/
theorem c7_row_keys_invariant_preserved (db : DB) (sql : String) (db2 : DB) (r : Result)
    (hw : tablesWF db.tables) (hupd : updateSetsDeclared db.tables (normalizeSql sql) = true)
    (hex : execute db sql = some (db2, r)) : tablesWF db2.tables := by
  unfold execute at hex
  rcases htok : tokensOf sql with _ | ⟨f, rest⟩ <;> rw [htok] at hex
  · simp at hex
  · dsimp only at hex
    simp only [Option.some.injEq, Prod.mk.injEq] at hex
    obtain ⟨h1, _⟩ := hex
    rw [← h1]
    show tablesWF (dispatch db.tables (jsToUpper f) (normalizeSql sql)).1
    unfold dispatch
    split_ifs
    exacts [createTable_preserves_WF _ _ hw, insert_preserves_WF _ _ hw, hw,
      update_preserves_WF _ _ hw hupd, delete_preserves_WF _ _ hw,
      dropTable_preserves_WF _ _ hw, hw, hw, hw]

/-- Witness for C7's amended theorem: an UPDATE assigning only the
declared column `id` keeps the demo catalog well-formed. -/
theorem c7_row_keys_invariant_preserved_witness :
    tablesWF (DB.mk [("users", demoUsersTableUpdated)] ["UPDATE users SET id=9"]).tables :=
  c7_row_keys_invariant_preserved (DB.mk demoTables []) "UPDATE users SET id=9"
    (DB.mk [("users", demoUsersTableUpdated)] ["UPDATE users SET id=9"])
    (Result.message "1 row(s) updated") (by decide) (by decide) (by decide)

end SimpleRDBMS
